import Mathlib

/-!
Verification of the retrieval-and-validation pipeline of the Autonomous QA
Agent repository (backend/rag_engine.py and backend/app.py).

The Python code is shallowly embedded: pure string manipulation is translated
directly; external collaborators (the Chroma vector store, the sentence
embedder, the Gemini language model, BeautifulSoup attribute extraction, the
langchain file loaders and the file system) are opaque capability providers
and appear as explicit parameters (oracle functions / outcome arguments);
mutable fields of the `RAGEngine` object become an explicit `EngineState`
record threaded through the operations.  Strings are Lean `String`s; Python
byte/Unicode subtleties outside ASCII are irrelevant to every property
proved here, and whitespace is modelled as ASCII whitespace.
-/

/-- ASCII whitespace, the fragment of Python `str.strip` / regex whitespace
relevant here: space, tab, newline, carriage return, vertical tab, form feed. -/
def isPyWhite (c : Char) : Bool :=
  c = ' ' || c = '\t' || c = '\n' || c = '\r' || c = '\x0b' || c = '\x0c'

/-- Python `str.strip()`: remove leading and trailing whitespace. -/
def pyStrip (s : String) : String :=
  String.mk (((s.toList.dropWhile isPyWhite).reverse.dropWhile isPyWhite).reverse)

/-- Python `str.lower()` on the ASCII alphabet. -/
def strLower (s : String) : String :=
  String.mk (s.toList.map Char.toLower)

/-- `os.path.basename`: the part of the path after the last slash. -/
def basename (p : String) : String :=
  String.mk ((p.toList.reverse.takeWhile (fun c => !(c = '/'))).reverse)

/-- `pathlib.Path(p).suffix`: the extension of the final component, beginning
at its last dot, provided that dot is neither the first nor the last character
of the component (`rag_engine._load_with_metadata` line 59). -/
def pathSuffix (p : String) : String :=
  let name := (basename p).toList
  let tail := name.reverse.takeWhile (fun c => !(c = '.'))
  if tail.length = name.length then ""
  else
    let dotIndex := name.length - 1 - tail.length
    if 0 < dotIndex ∧ dotIndex < name.length - 1 then String.mk ('.' :: tail.reverse)
    else ""

/-- `os.path.splitext(p)[1]`: the extension beginning at the last dot of the
final component, provided some non-dot character precedes that dot within the
component (`backend/app.py` lines 44-45). -/
def splitextExt (p : String) : String :=
  let name := (basename p).toList
  let tail := name.reverse.takeWhile (fun c => !(c = '.'))
  if tail.length = name.length then ""
  else
    let dotIndex := name.length - 1 - tail.length
    if (name.take dotIndex).any (fun c => !(c = '.')) then String.mk ('.' :: tail.reverse)
    else ""

/-- Whether the first list occurs at the head of the second. -/
def listStartsWith : List Char → List Char → Bool
  | [], _ => true
  | _ :: _, [] => false
  | p :: ps, c :: cs => p = c && listStartsWith ps cs

/-- Whether the first list occurs at the end of the second. -/
def listEndsWith (suf l : List Char) : Bool :=
  listStartsWith suf.reverse l.reverse

/-- `filename.lower().endswith((".html", ".htm"))` from
`rag_engine._get_latest_html_content` line 268. -/
def lowerEndsWithHtml (name : String) : Bool :=
  let n := name.toList.map Char.toLower
  listEndsWith (".html".toList) n || listEndsWith (".htm".toList) n

/-- Python truthiness of an optional string: `None` and the empty string are
falsy; a truthy value is returned unchanged. -/
def truthyStr : Option String → Option String
  | some c => if c = "" then none else some c
  | none => none

/-- Chunk/document metadata as used by the engine: the two provenance keys.
`none` models an absent dictionary key. -/
structure DocMeta where
  sourceDocument : Option String
  docType : Option String
deriving DecidableEq

/-- A langchain `Document`: page content plus provenance metadata. -/
structure Doc where
  pageContent : String
  metadata : DocMeta
deriving DecidableEq

/-- `backend/models.py` `TestCase`. -/
structure TestCase where
  test_id : String
  feature : String
  test_scenario : String
  expected_result : String
  grounded_in : String
deriving DecidableEq

/-- `backend/models.py` `TestPlan`. -/
structure TestPlan where
  test_viewpoints : List String
  test_cases : List TestCase
deriving DecidableEq

/-- Failure modes of `generate_test_cases`: the JSON/pydantic parse failing,
or the grounding validation raising `ValueError` with the list of
`(test_id, stripped grounded_in)` pairs it reports. -/
inductive GenError where
  | parseFailure
  | grounding (pairs : List (String × String))
deriving DecidableEq

/-- `RAGEngine._collect_sources` (rag_engine.py lines 213-214): the set of
`source_document` metadata values over the retrieved documents, keeping only
truthy values (a missing key or empty string contributes nothing).  Python
builds a `set`; a list is used here, and only membership and emptiness of the
collection are ever consulted, exactly as in the source. -/
def collectSources (docs : List Doc) : List String :=
  docs.filterMap (fun d =>
    match d.metadata.sourceDocument with
    | some s => if s = "" then none else some s
    | none => none)

/-- The loop body of `_validate_grounding` (rag_engine.py lines 220-223):
the pair appended to `invalid_cases` for a test case whose stripped
`grounded_in` is not an allowed source, and nothing otherwise. -/
def groundingPair (allowed : List String) (c : TestCase) : Option (String × String) :=
  if pyStrip c.grounded_in ∈ allowed then none else some (c.test_id, pyStrip c.grounded_in)

/-- `RAGEngine._validate_grounding` (rag_engine.py lines 216-226): skip when
nothing was retrieved, otherwise collect every test case whose stripped
`grounded_in` is not among the allowed sources and fail with all of them. -/
def validateGrounding (plan : TestPlan) (allowed : List String) : Except GenError Unit :=
  if allowed = [] then .ok ()
  else
    let invalid := plan.test_cases.filterMap (groundingPair allowed)
    if invalid = [] then .ok () else .error (.grounding invalid)

/-- `RAGEngine.generate_test_cases` (rag_engine.py lines 118-151), from the
point where the retrieval result and the parsed model output are in hand:
validate grounding against the sources collected from this call's retrieval
and return the plan.  Retrieval and the language model are oracles, so the
retrieved documents and the parsed plan are parameters. -/
def generateTestCases (docs : List Doc) (plan : TestPlan) : Except GenError TestPlan :=
  match validateGrounding plan (collectSources docs) with
  | .ok _ => .ok plan
  | .error e => .error e

/-- The persistence directory constant `CHROMA_PATH` (rag_engine.py line 22). -/
def chromaPath : String := "data/chroma_db"

/-- The upload directory constant `UPLOAD_DIR` (rag_engine.py line 23,
app.py line 10). -/
def uploadDir : String := "data/uploads"

/-- A handle to the Chroma vector collection.  Chroma itself is an opaque
collaborator; the handle records the persistent location it is bound to,
which is all the verified properties consult. -/
structure VectorStore where
  persistDirectory : String
deriving DecidableEq

/-- `Chroma(persist_directory=..., embedding_function=...)`: construct a
fresh collection handle bound to the given persistent location
(rag_engine.py lines 31-34 and 111-114). -/
def chromaInit (dir : String) : VectorStore := ⟨dir⟩

/-- The mutable fields of the `RAGEngine` object: the vector store handle and
the Cached Page State `latest_html_path` / `latest_html_content`
(rag_engine.py lines 31-36). -/
structure EngineState where
  store : VectorStore
  latestHtmlPath : Option String
  latestHtmlContent : Option String
deriving DecidableEq

/-- The state set up by `RAGEngine.__init__`. -/
def initEngineState : EngineState :=
  { store := chromaInit chromaPath, latestHtmlPath := none, latestHtmlContent := none }

/-- A load failure (unreadable file) propagated by a loader. -/
inductive LoadError where
  | readFailure (path : String)
deriving DecidableEq

/-- The external world as the engine sees it.  `fs` is the file system
(`none` = the path does not exist / cannot be read); `uploads` is the upload
directory listing with file contents (`none` = the directory is absent);
the loader fields are the opaque langchain loaders for markdown, text and
pdf files; `jsonFlatten` is `json.dumps(json.load(...), indent=2)`;
`extractText` is BeautifulSoup `get_text(separator="\n")`; `htmlIds`,
`htmlNames` and `htmlClasses` are the BeautifulSoup attribute-set
extractions used by `_validate_selenium_script` (rag_engine.py lines
229-236). -/
structure Env where
  fs : String → Option String
  uploads : Option (List (String × String))
  mdLoader : String → Except LoadError (List Doc)
  txtLoader : String → Except LoadError (List Doc)
  pdfLoader : String → Except LoadError (List Doc)
  jsonFlatten : String → String
  extractText : String → String
  htmlIds : String → List String
  htmlNames : String → List String
  htmlClasses : String → List String

/-- The side effect of `RAGEngine._load_html` on the engine object
(rag_engine.py lines 99-100): record the file as the Cached Page State. -/
def loadHtmlState (path raw : String) (s : EngineState) : EngineState :=
  { s with latestHtmlPath := some path, latestHtmlContent := some raw }

/-- `RAGEngine.clear_database` (rag_engine.py lines 103-116).  The outcome of
`vector_store.delete_collection()` is an explicit argument; the `try/except`
swallows any failure (the `except` arm only logs), and both control paths
re-create a fresh collection bound to `CHROMA_PATH` and clear the Cached
Page State. -/
def clearDatabase (deleteOutcome : Except String Unit) (s : EngineState) : EngineState :=
  match deleteOutcome with
  | .ok _ =>
      { store := chromaInit chromaPath, latestHtmlPath := none, latestHtmlContent := none }
  | .error _ =>
      { store := chromaInit chromaPath, latestHtmlPath := none, latestHtmlContent := none }

/-- `RAGEngine.generate_test_cases` with the engine state threaded through,
covering the whole call: the retrieved documents and the model-output parse
result (`none` = the JSON/pydantic parse raised) are oracle parameters.
The method body contains no assignment to any engine field, which the
state component of the result reflects. -/
def generateTestCasesFull (s : EngineState) (retrieved : List Doc)
    (parsed : Option TestPlan) : Except GenError TestPlan × EngineState :=
  match parsed with
  | none => (.error .parseFailure, s)
  | some plan => (generateTestCases retrieved plan, s)

/-- The single-quote and double-quote characters of the selector regex
character class. -/
def isQuoteChar (c : Char) : Bool := c = '\x27' || c = '\x22'

/-- Match one of the regex alternatives `ID|NAME|CSS_SELECTOR` at the head of
the input.  The three alternatives begin with distinct letters, so trying
them in the regex's order loses no match. -/
def matchMethod (s : List Char) : Option (String × List Char) :=
  if s.take 2 = ['I', 'D'] then some ("ID", s.drop 2)
  else if s.take 4 = ['N', 'A', 'M', 'E'] then some ("NAME", s.drop 4)
  else if s.take 12 = ['C', 'S', 'S', '_', 'S', 'E', 'L', 'E', 'C', 'T', 'O', 'R'] then
    some ("CSS_SELECTOR", s.drop 12)
  else none

/-- Attempt to match the selector regex of `_validate_selenium_script`
(rag_engine.py line 238) at the start of the input, returning the two
captured groups and the input remaining after the match.  The regex's
quantified parts are deterministic here: each `\s*` is followed by a
character outside the whitespace class, and the quoted literal `[^'"]+` is
followed by a character inside the excluded class, so greedy matching never
backtracks. -/
def matchAt (s : List Char) : Option ((String × String) × List Char) :=
  match s with
  | 'B' :: 'y' :: '.' :: s1 =>
    match matchMethod s1 with
    | none => none
    | some (m, s2) =>
      match s2.dropWhile isPyWhite with
      | ',' :: s4 =>
        match s4.dropWhile isPyWhite with
        | q :: s6 =>
          if isQuoteChar q then
            let content := s6.takeWhile (fun c => !(isQuoteChar c))
            match s6.dropWhile (fun c => !(isQuoteChar c)) with
            | _ :: s8 => if content = [] then none else some ((m, String.mk content), s8)
            | [] => none
          else none
        | [] => none
      | _ => none
  | _ => none

/-- `re.findall` for the selector regex: scan left to right, emitting
leftmost non-overlapping matches and continuing after each match.  The fuel
argument starts at the input length; a successful match consumes at least
one character, so the fuel never runs out before the input does. -/
def findSelAux : Nat → List Char → List (String × String)
  | 0, _ => []
  | _ + 1, [] => []
  | fuel + 1, c :: rest =>
    match matchAt (c :: rest) with
    | some (p, rest2) => p :: findSelAux fuel rest2
    | none => findSelAux fuel rest

/-- All `(method, selector)` pairs the selector regex finds in a script. -/
def findSelectors (s : List Char) : List (String × String) :=
  findSelAux s.length s

/-- The per-match test of `_validate_selenium_script` (rag_engine.py lines
244-253), `true` when the pair is appended to `missing`.  `startswith` on a
one-character literal is the head of the character list, and `selector[1:]`
its tail. -/
def selectorMissingB (ids names classes : List String) (m sel : String) : Bool :=
  if m = "ID" then !(ids.contains sel)
  else if m = "NAME" then !(names.contains sel)
  else if m = "CSS_SELECTOR" then
    if sel.toList.head? = some '#' && !(ids.contains (String.mk sel.toList.tail)) then true
    else if sel.toList.head? = some '.' && !(classes.contains (String.mk sel.toList.tail)) then
      true
    else false
  else false

/-- Failure modes of `_validate_selenium_script`: no selector pattern found
at all, or the list of `(method, selector)` pairs reported missing. -/
inductive SelectorError where
  | noSelectors
  | missingSelectors (pairs : List (String × String))
deriving DecidableEq

/-- `RAGEngine._validate_selenium_script` (rag_engine.py lines 228-257),
with the three BeautifulSoup attribute sets of the page markup passed in as
computed by the caller. -/
def validateSeleniumScript (script : String) (ids names classes : List String) :
    Except SelectorError Unit :=
  let found := findSelectors script.toList
  if found = [] then .error .noSelectors
  else
    let missing := found.filter (fun p => selectorMissingB ids names classes p.1 p.2)
    if missing = [] then .ok () else .error (.missingSelectors missing)

/-- The violation condition of the specification, stated in its own words:
a by-id literal outside the id set, a by-name literal outside the name set,
or a by-css-selector literal starting with a hash or a dot whose remainder
is outside the id set respectively the class-token set; css selectors of any
other shape are never violations. -/
def SelectorViolates (ids names classes : List String) (p : String × String) : Prop :=
  (p.1 = "ID" ∧ p.2 ∉ ids) ∨
  (p.1 = "NAME" ∧ p.2 ∉ names) ∨
  (p.1 = "CSS_SELECTOR" ∧ p.2.toList.head? = some '#' ∧ String.mk p.2.toList.tail ∉ ids) ∨
  (p.1 = "CSS_SELECTOR" ∧ p.2.toList.head? = some '.' ∧ String.mk p.2.toList.tail ∉ classes)

/-- The first entry of the upload directory listing whose name, lowercased,
ends in `.html` or `.htm` (the `for` loop of rag_engine.py lines 267-273). -/
def firstHtmlUpload : List (String × String) → Option (String × String)
  | [] => none
  | (n, c) :: rest => if lowerEndsWithHtml n then some (n, c) else firstHtmlUpload rest

/-- The cold-scan arm of `_get_latest_html_content` (rag_engine.py lines
266-274): if the upload directory exists, read the first page-markup file in
it, caching both fields; otherwise return `None`. -/
def scanUploads (env : Env) (s : EngineState) : Option String × EngineState :=
  match env.uploads with
  | some entries =>
    match firstHtmlUpload entries with
    | some (n, c) =>
      (some c, { s with latestHtmlContent := some c, latestHtmlPath := some (uploadDir ++ "/" ++ n) })
    | none => (none, s)
  | none => (none, s)

/-- `RAGEngine._get_latest_html_content` (rag_engine.py lines 259-274):
return the in-memory cached markup if truthy; else re-read the cached path
from disk if that path is truthy and exists (returning whatever is read,
and caching it); else cold-scan the upload directory. -/
def getLatestHtmlContent (env : Env) (s : EngineState) : Option String × EngineState :=
  match truthyStr s.latestHtmlContent with
  | some c => (some c, s)
  | none =>
    match s.latestHtmlPath with
    | some p =>
      if p = "" then scanUploads env s
      else
        match env.fs p with
        | some content => (some content, { s with latestHtmlContent := some content })
        | none => scanUploads env s
    | none => scanUploads env s

/-- Line 159 of `generate_selenium_script`:
`html_source = html_content or self._get_latest_html_content()`. -/
def resolveHtmlSource (env : Env) (s : EngineState) (htmlOverride : Option String) :
    Option String × EngineState :=
  match truthyStr htmlOverride with
  | some c => (some c, s)
  | none => getLatestHtmlContent env s

/-- The Markdown code-fence backtick. -/
def fenceChar : Char := '\x60'

/-- The literal replaced first by line 200 of `generate_selenium_script`
(three backticks followed by the word python). -/
def fencePython : String := String.mk [fenceChar, fenceChar, fenceChar] ++ "python"

/-- The literal replaced second: three backticks. -/
def fenceTicks : String := String.mk [fenceChar, fenceChar, fenceChar]

/-- `str.replace(pat, "")` for a non-empty pattern: delete every
non-overlapping occurrence, scanning left to right.  The fuel argument
starts at the input length; each step consumes at least one character. -/
def removeOccAux : Nat → List Char → List Char → List Char
  | 0, _, _ => []
  | _ + 1, _, [] => []
  | fuel + 1, pat, c :: rest =>
    if listStartsWith pat (c :: rest) then removeOccAux fuel pat (List.drop pat.length (c :: rest))
    else c :: removeOccAux fuel pat rest

/-- `s.replace(pat, "")` on strings. -/
def pyRemoveAll (pat s : String) : String :=
  String.mk (removeOccAux s.toList.length pat.toList s.toList)

/-- Line 200 of `generate_selenium_script`: strip Markdown code fences and
surrounding whitespace from the model output. -/
def stripFences (s : String) : String :=
  pyStrip (pyRemoveAll fenceTicks (pyRemoveAll fencePython s))

/-- Failure modes of `generate_selenium_script`: no page markup resolvable
(the `ValueError` of line 161), or the selector validation failing. -/
inductive ScriptError where
  | missingMarkup
  | selectorFailure (e : SelectorError)
deriving DecidableEq

/-- `RAGEngine.generate_selenium_script` (rag_engine.py lines 153-202), from
the point where the two retrievals are done (they do not affect the result
returned to the caller, only the prompt): resolve the page markup, fail if
it is falsy, otherwise take the model output (an oracle parameter), strip
fences, validate its selectors against the resolved markup's attribute sets
and return it. -/
def generateSeleniumScript (env : Env) (htmlOverride : Option String) (llmOut : String)
    (s : EngineState) : Except ScriptError String × EngineState :=
  let r := resolveHtmlSource env s htmlOverride
  match truthyStr r.1 with
  | none => (.error .missingMarkup, r.2)
  | some src =>
    let script := stripFences llmOut
    match validateSeleniumScript script (env.htmlIds src) (env.htmlNames src) (env.htmlClasses src) with
    | .ok _ => (.ok script, r.2)
    | .error e => (.error (.selectorFailure e), r.2)

/-- The `doc_type` entry of `base_metadata` (rag_engine.py line 62):
the html type exactly for the two page-markup extensions, lowercased. -/
def defaultDocType (path : String) : String :=
  if strLower (pathSuffix path) = ".html" ∨ strLower (pathSuffix path) = ".htm" then "html"
  else "support"

/-- The extension dispatch of `_load_with_metadata` (rag_engine.py lines
59-80): markdown, text, json (flattened with the base metadata), page markup
(extract visible text, record the Cached Page State), pdf, and a plain-text
default arm.  The json and html arms read the file; a missing file is a load
failure. -/
def loadDispatch (env : Env) (path : String) (s : EngineState) :
    Except LoadError (List Doc) × EngineState :=
  let ext := strLower (pathSuffix path)
  if ext = ".md" then (env.mdLoader path, s)
  else if ext = ".txt" then (env.txtLoader path, s)
  else if ext = ".json" then
    match env.fs path with
    | some raw =>
      (.ok [{ pageContent := env.jsonFlatten raw,
              metadata := { sourceDocument := some (basename path),
                            docType := some (defaultDocType path) } }], s)
    | none => (.error (.readFailure path), s)
  else if ext = ".html" ∨ ext = ".htm" then
    match env.fs path with
    | some raw =>
      (.ok [{ pageContent := env.extractText raw,
              metadata := { sourceDocument := some (basename path),
                            docType := some (defaultDocType path) } }], loadHtmlState path raw s)
    | none => (.error (.readFailure path), s)
  else if ext = ".pdf" then (env.pdfLoader path, s)
  else (env.txtLoader path, s)

/-- The `setdefault` loop of `_load_with_metadata` (rag_engine.py lines
82-84) applied to one document: fill in `source_document` and `doc_type`
only where the type-specific loader left them unset. -/
def applySourceDefaults (src ty : String) (d : Doc) : Doc :=
  { d with metadata :=
      { sourceDocument :=
          match d.metadata.sourceDocument with
          | some v => some v
          | none => some src,
        docType :=
          match d.metadata.docType with
          | some v => some v
          | none => some ty } }

/-- `RAGEngine._load_with_metadata` (rag_engine.py lines 58-86): dispatch on
the extension, then default the two provenance keys. -/
def loadWithMetadata (env : Env) (path : String) (s : EngineState) :
    Except LoadError (List Doc) × EngineState :=
  match loadDispatch env path s with
  | (.ok docs, s1) =>
    (.ok (docs.map (applySourceDefaults (basename path) (defaultDocType path))), s1)
  | (.error e, s1) => (.error e, s1)

/-- `os.path.splitext(f)[1].lower() in HTML_EXTENSIONS` (app.py lines 44-45). -/
def isHtmlSplitext (f : String) : Bool :=
  strLower (splitextExt f) = ".html" || strLower (splitextExt f) = ".htm"

/-- Failure modes of the `build-knowledge-base` handler: the three
`HTTPException(400)` rejections of app.py lines 41-50. -/
inductive BuildError where
  | noFiles
  | noHtmlFile
  | noSupportFile
deriving DecidableEq

/-- The `build_knowledge_base` handler (app.py lines 37-55): list the upload
directory, reject an empty set, a set with no page-markup file, or a set
with no support file, and only then clear the database and ingest.  The
clear and ingest operations are the opaque engine calls, passed as
functions so the handler's control flow is explicit. -/
def buildKnowledgeBase (clearFn : EngineState → EngineState)
    (ingestFn : List String → EngineState → Nat × EngineState)
    (uploadNames : List String) (s : EngineState) : Except BuildError Nat × EngineState :=
  let files := uploadNames.map (fun n => uploadDir ++ "/" ++ n)
  if files = [] then (.error .noFiles, s)
  else
    let htmlFiles := files.filter (fun f => isHtmlSplitext f)
    let supportFiles := files.filter (fun f => !(isHtmlSplitext f))
    if htmlFiles = [] then (.error .noHtmlFile, s)
    else if supportFiles = [] then (.error .noSupportFile, s)
    else
      let s1 := clearFn s
      let r := ingestFn files s1
      (.ok r.1, r.2)

/-- The operations of the ingestion/clear lifecycle that touch the Cached
Page State, per `_load_html` and `clear_database`: loading a page-markup
file (with its path and verbatim raw markup), loading any other document
(which leaves the cache alone), and clearing the database (with the
outcome of the underlying collection delete). -/
inductive EngineOp where
  | loadMarkup (path raw : String)
  | loadSupport
  | clearOp (deleteOutcome : Except String Unit)

/-- The effect of one lifecycle operation on the engine state, in terms of
the embedded `_load_html` side effect and `clear_database`. -/
def stepOp (s : EngineState) : EngineOp → EngineState
  | .loadMarkup path raw => loadHtmlState path raw s
  | .loadSupport => s
  | .clearOp o => clearDatabase o s

/-- Run a sequence of lifecycle operations from the freshly constructed
engine. -/
def runOps (ops : List EngineOp) : EngineState :=
  ops.foldl stepOp initEngineState

/-- Concrete environment for instantiations: empty file system, no upload
directory, loaders that fail, identity oracles. -/
def envEmpty : Env :=
  { fs := fun _ => none
    uploads := none
    mdLoader := fun p => .error (.readFailure p)
    txtLoader := fun p => .error (.readFailure p)
    pdfLoader := fun p => .error (.readFailure p)
    jsonFlatten := fun r => r
    extractText := fun r => r
    htmlIds := fun _ => []
    htmlNames := fun _ => []
    htmlClasses := fun _ => [] }

/-- Environment whose upload directory holds one page-markup file. -/
def envUploads : Env := { envEmpty with uploads := some [("page.html", "<p>hi</p>")] }

/-- Environment whose text loader yields one document that already carries a
`doc_type` value of its own. -/
def envTxtPreset : Env :=
  { envEmpty with txtLoader := fun _ => .ok [⟨"body", ⟨none, some "html"⟩⟩] }

/-- A well-grounded test case citing `guide.md`. -/
def tcGood : TestCase := ⟨"TC1", "checkout", "apply promo", "discount applied", "guide.md"⟩

/-- A plan consisting of the well-grounded test case. -/
def planGood : TestPlan := ⟨["promo handling"], [tcGood]⟩

/-- A retrieved chunk attributed to `guide.md`. -/
def docGuide : Doc := ⟨"The checkout page has a promo field.", ⟨some "guide.md", some "support"⟩⟩

/-- A retrieved chunk whose `source_document` value is the empty string,
which the source-collection step discards as falsy. -/
def docEmptySource : Doc := ⟨"stray text", ⟨some "", some "support"⟩⟩

/-- A test case citing a source no retrieval produced. -/
def tcFake : TestCase := ⟨"TC9", "checkout", "scenario", "result", "fabricated.md"⟩

/-- A plan consisting of the fabricated-source test case. -/
def planFake : TestPlan := ⟨[], [tcFake]⟩

/-- C1 — counterexample.  When the retrieval yields no truthy
`source_document` value the Allowed-Sources Set is empty, and
`generate_test_cases` returns the parsed plan unvalidated: here the returned
plan contains a test case whose trimmed `grounded_in` is not a member of the
(empty) Allowed-Sources Set, so the claim as stated fails at this input. -/
theorem generate_test_cases_grounding_cex :
    generateTestCases [] planFake = Except.ok planFake ∧
    tcFake ∈ planFake.test_cases ∧
    pyStrip tcFake.grounded_in ∉ collectSources [] := by
  refine ⟨rfl, by decide, by simp [collectSources]⟩

/-- C1 (amended): provided the Allowed-Sources Set of the call's retrieval
is nonempty, (a) every plan returned has each test case's trimmed
`grounded_in` in the set, (b) a grounding error names exactly the violating
`(test_id, offending_source)` pairs — all of them, not only the first — and
(c) the call fails whenever some test case violates membership. -/
theorem generate_test_cases_grounding (docs : List Doc) (plan : TestPlan)
    (hne : collectSources docs ≠ []) :
    (∀ p, generateTestCases docs plan = Except.ok p →
       ∀ tc ∈ p.test_cases, pyStrip tc.grounded_in ∈ collectSources docs)
    ∧ (∀ pairs, generateTestCases docs plan = Except.error (GenError.grounding pairs) →
       ∀ tid src, (tid, src) ∈ pairs ↔
         ∃ tc ∈ plan.test_cases, tc.test_id = tid ∧ pyStrip tc.grounded_in = src ∧
           pyStrip tc.grounded_in ∉ collectSources docs)
    ∧ ((∃ tc ∈ plan.test_cases, pyStrip tc.grounded_in ∉ collectSources docs) →
       ∃ pairs, generateTestCases docs plan = Except.error (GenError.grounding pairs)) := by
  have hval : generateTestCases docs plan =
      (if plan.test_cases.filterMap (groundingPair (collectSources docs)) = []
       then Except.ok plan
       else Except.error (GenError.grounding
         (plan.test_cases.filterMap (groundingPair (collectSources docs))))) := by
    simp only [generateTestCases, validateGrounding, if_neg hne]
    by_cases h : plan.test_cases.filterMap (groundingPair (collectSources docs)) = [] <;>
      simp [h]
  refine ⟨?_, ?_, ?_⟩
  · intro p hp tc htc
    rw [hval] at hp
    by_cases hinv : plan.test_cases.filterMap (groundingPair (collectSources docs)) = []
    · rw [if_pos hinv] at hp
      have hpl : p = plan := by
        injection hp with h1
        exact h1.symm
      subst hpl
      have hnone := List.filterMap_eq_nil_iff.mp hinv tc htc
      by_cases hmem : pyStrip tc.grounded_in ∈ collectSources docs
      · exact hmem
      · simp [groundingPair, hmem] at hnone
    · rw [if_neg hinv] at hp
      exact absurd hp (by simp)
  · intro pairs hp tid src
    rw [hval] at hp
    by_cases hinv : plan.test_cases.filterMap (groundingPair (collectSources docs)) = []
    · rw [if_pos hinv] at hp
      exact absurd hp (by simp)
    · rw [if_neg hinv] at hp
      have hpairs : pairs = plan.test_cases.filterMap (groundingPair (collectSources docs)) := by
        injection hp with h1
        injection h1 with h2
        exact h2.symm
      subst hpairs
      constructor
      · intro hmem
        rcases List.mem_filterMap.mp hmem with ⟨tc, htc, hf⟩
        by_cases hm : pyStrip tc.grounded_in ∈ collectSources docs
        · simp [groundingPair, hm] at hf
        · simp [groundingPair, hm] at hf
          exact ⟨tc, htc, hf.1, hf.2, hm⟩
      · rintro ⟨tc, htc, hid, hsrc, hm⟩
        refine List.mem_filterMap.mpr ⟨tc, htc, ?_⟩
        simp only [groundingPair]
        rw [if_neg hm, hid, hsrc]
  · rintro ⟨tc, htc, hm⟩
    rw [hval]
    have hne2 : plan.test_cases.filterMap (groundingPair (collectSources docs)) ≠ [] := by
      intro h0
      have := List.filterMap_eq_nil_iff.mp h0 tc htc
      simp [groundingPair, hm] at this
    rw [if_neg hne2]
    exact ⟨_, rfl⟩

/-- C1 — witness: at a retrieval producing `guide.md` and a plan grounded in
it, the amended theorem yields the membership fact. -/
theorem generate_test_cases_grounding_witness :
    pyStrip tcGood.grounded_in ∈ collectSources [docGuide] :=
  (generate_test_cases_grounding [docGuide] planGood (by decide)).1 planGood rfl tcGood
    (by decide)

/-- C3: when the retrieval yields an empty Allowed-Sources Set, grounding
validation is skipped and the parsed plan is returned whatever its
`grounded_in` fields contain. -/
theorem generate_test_cases_skips_empty_sources (docs : List Doc) (plan : TestPlan)
    (h : collectSources docs = []) : generateTestCases docs plan = Except.ok plan := by
  simp [generateTestCases, validateGrounding, h]

/-- C3 — witness: a retrieval whose only chunk carries an empty
`source_document` yields an empty Allowed-Sources Set, and the
fabricated-source plan is returned unvalidated. -/
theorem generate_test_cases_skips_empty_sources_witness :
    generateTestCases [docEmptySource] planFake = Except.ok planFake :=
  generate_test_cases_skips_empty_sources [docEmptySource] planFake rfl

/-- C9: `clear_database` never propagates a deletion error — for every
outcome of the underlying collection delete it behaves exactly as on
success, re-creating a fresh collection handle bound to the same persistent
location and clearing the cached page state. -/
theorem clear_database_tolerates_delete_errors (o : Except String Unit) (s : EngineState) :
    clearDatabase o s = clearDatabase (Except.ok ()) s ∧
    (clearDatabase o s).store = chromaInit chromaPath ∧
    (clearDatabase o s).store.persistDirectory = chromaPath ∧
    (clearDatabase o s).latestHtmlPath = none ∧
    (clearDatabase o s).latestHtmlContent = none := by
  cases o <;> exact ⟨rfl, rfl, rfl, rfl, rfl⟩

/-- C10: a `generate_test_cases` call — returning or raising, over any
retrieval result and any model-output parse result (the query and API key
only influence those oracles) — leaves every mutable engine field unchanged:
the method body assigns to none of them. -/
theorem generate_test_cases_frame (s : EngineState) (retrieved : List Doc)
    (parsed : Option TestPlan) :
    (generateTestCasesFull s retrieved parsed).2 = s := by
  cases parsed <;> rfl

/-- The boolean test applied per match agrees with the specification's
violation predicate. -/
theorem selectorMissingB_iff (ids names classes : List String) (p : String × String) :
    selectorMissingB ids names classes p.1 p.2 = true ↔
      SelectorViolates ids names classes p := by
  obtain ⟨m, sel⟩ := p
  simp only [selectorMissingB, SelectorViolates]
  by_cases hid : m = "ID"
  · subst hid; simp
  · rw [if_neg hid]
    by_cases hnm : m = "NAME"
    · subst hnm; simp
    · rw [if_neg hnm]
      by_cases hcss : m = "CSS_SELECTOR"
      · subst hcss
        by_cases h1 : sel.toList.head? = some '#'
        · simp [h1]
        · by_cases h2 : sel.toList.head? = some '.'
          · simp [h1, h2]
          · simp [h1, h2]
      · simp [hid, hnm, hcss]

/-- C2: selector validation fails — and with it the whole
`generate_selenium_script` call — exactly when the script contains no
recognized `By.ID`/`By.NAME`/`By.CSS_SELECTOR` literal-argument pattern at
all, or some extracted pair violates the attribute-set conditions (by-id
literal outside the id set, by-name literal outside the name set, hash- or
dot-led css literal with its remainder outside the id respectively class
set; other css forms unchecked); on failure the reported pairs are exactly
the violating ones, and a returned script passed validation against the
resolved markup's attribute sets. -/
theorem selenium_selector_validation (script : String) (ids names classes : List String) :
    ((∃ e, validateSeleniumScript script ids names classes = Except.error e) ↔
      (findSelectors script.toList = [] ∨
       ∃ p ∈ findSelectors script.toList, SelectorViolates ids names classes p))
    ∧ (∀ pairs, validateSeleniumScript script ids names classes =
         Except.error (SelectorError.missingSelectors pairs) →
       ∀ p, p ∈ pairs ↔
         (p ∈ findSelectors script.toList ∧ SelectorViolates ids names classes p))
    ∧ (∀ env o llmOut s out s2,
         generateSeleniumScript env o llmOut s = (Except.ok out, s2) →
         out = stripFences llmOut ∧
         ∃ src, truthyStr (resolveHtmlSource env s o).1 = some src ∧
           validateSeleniumScript out (env.htmlIds src) (env.htmlNames src)
             (env.htmlClasses src) = Except.ok ())
    ∧ (∀ env o llmOut s src e,
         truthyStr (resolveHtmlSource env s o).1 = some src →
         validateSeleniumScript (stripFences llmOut) (env.htmlIds src) (env.htmlNames src)
           (env.htmlClasses src) = Except.error e →
         (generateSeleniumScript env o llmOut s).1 =
           Except.error (ScriptError.selectorFailure e)) := by
  have hval : validateSeleniumScript script ids names classes =
      (if findSelectors script.toList = [] then Except.error SelectorError.noSelectors
       else if (findSelectors script.toList).filter
           (fun p => selectorMissingB ids names classes p.1 p.2) = [] then Except.ok ()
       else Except.error (SelectorError.missingSelectors ((findSelectors script.toList).filter
           (fun p => selectorMissingB ids names classes p.1 p.2)))) := rfl
  refine ⟨?_, ?_, ?_, ?_⟩
  · by_cases hfound : findSelectors script.toList = []
    · constructor
      · intro _; exact Or.inl hfound
      · intro _
        exact ⟨.noSelectors, by rw [hval, if_pos hfound]⟩
    · by_cases hmissing : (findSelectors script.toList).filter
          (fun p => selectorMissingB ids names classes p.1 p.2) = []
      · constructor
        · rintro ⟨e, he⟩
          rw [hval, if_neg hfound, if_pos hmissing] at he
          exact absurd he (by simp)
        · rintro (h | ⟨p, hp, hv⟩)
          · exact absurd h hfound
          · exfalso
            have hnone := List.filter_eq_nil_iff.mp hmissing p hp
            exact hnone ((selectorMissingB_iff ids names classes p).mpr hv)
      · constructor
        · intro _
          rcases List.exists_mem_of_ne_nil _ hmissing with ⟨p, hp⟩
          rcases List.mem_filter.mp hp with ⟨hpf, hpb⟩
          exact Or.inr ⟨p, hpf, (selectorMissingB_iff ids names classes p).mp hpb⟩
        · intro _
          exact ⟨_, by rw [hval, if_neg hfound, if_neg hmissing]⟩
  · intro pairs hp p
    rw [hval] at hp
    by_cases hfound : findSelectors script.toList = []
    · rw [if_pos hfound] at hp
      exact absurd hp (by simp)
    · by_cases hmissing : (findSelectors script.toList).filter
          (fun q => selectorMissingB ids names classes q.1 q.2) = []
      · rw [if_neg hfound, if_pos hmissing] at hp
        exact absurd hp (by simp)
      · rw [if_neg hfound, if_neg hmissing] at hp
        have hpairs : (findSelectors script.toList).filter
            (fun q => selectorMissingB ids names classes q.1 q.2) = pairs := by
          injection hp with h1
          injection h1 with h2
        rw [← hpairs]
        constructor
        · intro hm
          rcases List.mem_filter.mp hm with ⟨hpf, hpb⟩
          exact ⟨hpf, (selectorMissingB_iff ids names classes p).mp hpb⟩
        · rintro ⟨hpf, hv⟩
          exact List.mem_filter.mpr ⟨hpf, (selectorMissingB_iff ids names classes p).mpr hv⟩
  · intro env o llmOut s out s2 h
    simp only [generateSeleniumScript] at h
    split at h
    · next heq =>
        have h1 := congrArg Prod.fst h
        exact absurd h1 (by simp)
    · next src heq =>
        split at h
        · next u hveq =>
            have h1 := congrArg Prod.fst h
            simp only at h1
            injection h1 with h2
            cases u
            subst h2
            exact ⟨rfl, src, heq, hveq⟩
        · next e hveq =>
            have h1 := congrArg Prod.fst h
            exact absurd h1 (by simp)
  · intro env o llmOut s src e htr hv
    simp only [generateSeleniumScript]
    split
    · next heq =>
        rw [htr] at heq
        exact absurd heq (by simp)
    · next src2 heq =>
        rw [htr] at heq
        injection heq with h2
        subst h2
        rw [hv]

/-- C2 — witness: at a one-selector script citing an id absent from the
markup attribute sets, the theorem reports that exact pair as extracted and
violating. -/
theorem selenium_selector_validation_witness :
    ("ID", "zzz") ∈ findSelectors ("x(By.ID, \x22zzz\x22)").toList ∧
      SelectorViolates ["promo"] [] [] ("ID", "zzz") :=
  ((selenium_selector_validation "x(By.ID, \x22zzz\x22)" ["promo"] [] []).2.1
    [("ID", "zzz")] rfl ("ID", "zzz")).mp (by decide)

/-- C4: `generate_selenium_script` resolves its page markup in the fixed
priority order — truthy `html_override` argument; else truthy in-memory
cached markup; else re-reading a truthy cached path that exists on disk
(whatever that read yields); else the first upload-directory file whose
lowercased name ends in `.html` or `.htm` — and when the resolution yields
no content the call fails with the missing-markup error whatever the
language model would have answered (the model is never consulted). -/
theorem html_resolution_priority (env : Env) (s : EngineState) :
    (∀ c, c ≠ "" → (resolveHtmlSource env s (some c)).1 = some c)
    ∧ (∀ o c, truthyStr o = none → s.latestHtmlContent = some c → c ≠ "" →
        (resolveHtmlSource env s o).1 = some c)
    ∧ (∀ o p c, truthyStr o = none → truthyStr s.latestHtmlContent = none →
        s.latestHtmlPath = some p → p ≠ "" → env.fs p = some c →
        (resolveHtmlSource env s o).1 = some c)
    ∧ (∀ o entries n c, truthyStr o = none → truthyStr s.latestHtmlContent = none →
        (∀ q, s.latestHtmlPath = some q → q = "" ∨ env.fs q = none) →
        env.uploads = some entries → firstHtmlUpload entries = some (n, c) →
        (resolveHtmlSource env s o).1 = some c)
    ∧ (∀ o, truthyStr (resolveHtmlSource env s o).1 = none →
        ∀ llmOut, (generateSeleniumScript env o llmOut s).1 =
          Except.error ScriptError.missingMarkup) := by
  refine ⟨?_, ?_, ?_, ?_, ?_⟩
  · intro c hc
    simp [resolveHtmlSource, truthyStr, hc]
  · intro o c ho hc hcne
    have hcontent : truthyStr s.latestHtmlContent = some c := by
      rw [hc]; simp [truthyStr, hcne]
    simp [resolveHtmlSource, getLatestHtmlContent, ho, hcontent]
  · intro o p c ho hcnone hp hpne hfs
    simp [resolveHtmlSource, getLatestHtmlContent, ho, hcnone, hp, hpne, hfs]
  · intro o entries n c ho hcnone hpath hup hfirst
    cases hp : s.latestHtmlPath with
    | none =>
      simp [resolveHtmlSource, getLatestHtmlContent, scanUploads, ho, hcnone, hp, hup, hfirst]
    | some q =>
      rcases hpath q hp with hq | hq
      · subst hq
        simp [resolveHtmlSource, getLatestHtmlContent, scanUploads, ho, hcnone, hp, hup, hfirst]
      · simp [resolveHtmlSource, getLatestHtmlContent, scanUploads, ho, hcnone, hp, hq, hup,
          hfirst]
  · intro o hr llmOut
    simp only [generateSeleniumScript]
    split
    · rfl
    · next src heq =>
        rw [hr] at heq
        exact absurd heq (by simp)

/-- C4 — witness: with an empty cache and no cached path, the first
page-markup upload resolves. -/
theorem html_resolution_priority_witness :
    (resolveHtmlSource envUploads initEngineState none).1 = some "<p>hi</p>" :=
  (html_resolution_priority envUploads initEngineState).2.2.2.1 none
    [("page.html", "<p>hi</p>")] "page.html" "<p>hi</p>" rfl rfl
    (fun q hq => by simp [initEngineState] at hq) rfl (by decide)

/-- Taking while a predicate holds stops at an interposed failing element. -/
theorem takeWhile_append_stop (pred : Char → Bool) (c : Char) (hc : pred c = false) :
    ∀ (l1 l2 : List Char), (l1 ++ c :: l2).takeWhile pred = l1.takeWhile pred := by
  intro l1 l2
  induction l1 with
  | nil => simp [List.takeWhile, hc]
  | cons a t ih =>
    cases ha : pred a with
    | true => simp [List.takeWhile, ha, ih]
    | false => simp [List.takeWhile, ha]

/-- Joining a name onto the upload directory leaves its base name alone. -/
theorem basename_join (n : String) : basename (uploadDir ++ "/" ++ n) = basename n := by
  have hdata : (uploadDir ++ "/" ++ n).toList = "data/uploads/".toList ++ n.toList := by
    simp [uploadDir, String.toList]
  have hrev : ("data/uploads/".toList).reverse = '/' :: ("data/uploads".toList).reverse := by
    decide
  unfold basename
  rw [hdata, List.reverse_append, hrev,
    takeWhile_append_stop (fun c => !(c = '/')) '/' (by decide)]

/-- Joining a name onto the upload directory leaves its `splitext` extension
alone. -/
theorem splitextExt_join (n : String) : splitextExt (uploadDir ++ "/" ++ n) = splitextExt n := by
  unfold splitextExt
  rw [basename_join]

/-- Joining a name onto the upload directory leaves the page-markup
extension test alone. -/
theorem isHtmlSplitext_join (n : String) :
    isHtmlSplitext (uploadDir ++ "/" ++ n) = isHtmlSplitext n := by
  unfold isHtmlSplitext
  rw [splitextExt_join]

/-- C5: a `build-knowledge-base` call whose upload set is empty, has no
page-markup (`.html`/`.htm` by `splitext`, case-insensitively) file, or has
no support file, is rejected with an error before any store mutation:
whatever the clear and ingest operations would do, they are not run, the
result is independent of them, and the engine state (store and cached page
state alike) is returned unchanged. -/
theorem build_kb_rejects_invalid_upload (uploadNames : List String) (s : EngineState)
    (h : uploadNames = [] ∨ uploadNames.filter (fun n => isHtmlSplitext n) = []
       ∨ uploadNames.filter (fun n => !(isHtmlSplitext n)) = []) :
    ∀ clearFn ingestFn,
      (∃ e, (buildKnowledgeBase clearFn ingestFn uploadNames s).1 = Except.error e)
      ∧ (buildKnowledgeBase clearFn ingestFn uploadNames s).2 = s
      ∧ ∀ clearFn2 ingestFn2,
          buildKnowledgeBase clearFn ingestFn uploadNames s =
            buildKnowledgeBase clearFn2 ingestFn2 uploadNames s := by
  have hcomp1 : ((fun f => isHtmlSplitext f) ∘ fun n => uploadDir ++ "/" ++ n) =
      fun n => isHtmlSplitext n := by
    funext n
    simp [Function.comp, isHtmlSplitext_join]
  have hcomp2 : ((fun f => !(isHtmlSplitext f)) ∘ fun n => uploadDir ++ "/" ++ n) =
      fun n => !(isHtmlSplitext n) := by
    funext n
    simp [Function.comp, isHtmlSplitext_join]
  intro clearFn ingestFn
  by_cases hnil : uploadNames = []
  · subst hnil
    exact ⟨⟨.noFiles, by simp [buildKnowledgeBase]⟩, by simp [buildKnowledgeBase],
      fun c2 i2 => by simp [buildKnowledgeBase]⟩
  · have hmapnil : ¬ uploadNames.map (fun n => uploadDir ++ "/" ++ n) = [] := by
      simpa using hnil
    rcases h with h0 | hh | hs
    · exact absurd h0 hnil
    · have hfil : (uploadNames.map (fun n => uploadDir ++ "/" ++ n)).filter
          (fun f => isHtmlSplitext f) = [] := by
        rw [List.filter_map, hcomp1, hh, List.map_nil]
      exact ⟨⟨.noHtmlFile, by simp [buildKnowledgeBase, hmapnil, hfil]⟩,
        by simp [buildKnowledgeBase, hmapnil, hfil],
        fun c2 i2 => by simp [buildKnowledgeBase, hmapnil, hfil]⟩
    · have hfilS : (uploadNames.map (fun n => uploadDir ++ "/" ++ n)).filter
          (fun f => !(isHtmlSplitext f)) = [] := by
        rw [List.filter_map, hcomp2, hs, List.map_nil]
      have hfilH : ¬ (uploadNames.map (fun n => uploadDir ++ "/" ++ n)).filter
          (fun f => isHtmlSplitext f) = [] := by
        intro h0
        rw [List.filter_map, hcomp1] at h0
        apply hnil
        cases hu : uploadNames with
        | nil => rfl
        | cons a t =>
          exfalso
          by_cases hp : isHtmlSplitext a
          · have ham : a ∈ uploadNames.filter (fun n => isHtmlSplitext n) :=
              List.mem_filter.mpr ⟨by simp [hu], hp⟩
            have : uploadNames.filter (fun n => isHtmlSplitext n) = [] := by
              have := congrArg (List.map (fun n => uploadDir ++ "/" ++ n)) h0
              simpa using h0
            rw [this] at ham
            exact List.not_mem_nil a ham
          · have ham : a ∈ uploadNames.filter (fun n => !(isHtmlSplitext n)) :=
              List.mem_filter.mpr ⟨by simp [hu], by simp [hp]⟩
            rw [hs] at ham
            exact List.not_mem_nil a ham
      exact ⟨⟨.noSupportFile, by simp [buildKnowledgeBase, hmapnil, hfilS, hfilH]⟩,
        by simp [buildKnowledgeBase, hmapnil, hfilS, hfilH],
        fun c2 i2 => by simp [buildKnowledgeBase, hmapnil, hfilS, hfilH]⟩

/-- C5 — witness: an upload set holding only a support file is rejected with
the engine state untouched. -/
theorem build_kb_rejects_invalid_upload_witness :
    (∃ e, (buildKnowledgeBase (fun t => t) (fun _ t => (0, t)) ["notes.txt"]
        initEngineState).1 = Except.error e)
    ∧ (buildKnowledgeBase (fun t => t) (fun _ t => (0, t)) ["notes.txt"]
        initEngineState).2 = initEngineState := by
  have h := build_kb_rejects_invalid_upload ["notes.txt"] initEngineState
    (Or.inr (Or.inl (by decide))) (fun t => t) (fun _ t => (0, t))
  exact ⟨h.1, h.2.1⟩

/-- C7: the loader's documents carry `doc_type` defaulting to the html type
exactly for the two page-markup extensions (case-insensitively) and to the
support type otherwise, and `source_document` defaulting to the file's base
name — both applied only where the type-specific loader left the key unset,
and without touching the page content. -/
theorem load_with_metadata_defaults (env : Env) (path : String) (s : EngineState) :
    (∀ docs s1, loadDispatch env path s = (Except.ok docs, s1) →
       loadWithMetadata env path s =
         (Except.ok (docs.map (applySourceDefaults (basename path) (defaultDocType path))), s1))
    ∧ (defaultDocType path = "html" ↔
        (strLower (pathSuffix path) = ".html" ∨ strLower (pathSuffix path) = ".htm"))
    ∧ (defaultDocType path = "support" ↔
        ¬(strLower (pathSuffix path) = ".html" ∨ strLower (pathSuffix path) = ".htm"))
    ∧ (∀ src ty d, d.metadata.sourceDocument = none →
        (applySourceDefaults src ty d).metadata.sourceDocument = some src)
    ∧ (∀ src ty d v, d.metadata.sourceDocument = some v →
        (applySourceDefaults src ty d).metadata.sourceDocument = some v)
    ∧ (∀ src ty d, d.metadata.docType = none →
        (applySourceDefaults src ty d).metadata.docType = some ty)
    ∧ (∀ src ty d v, d.metadata.docType = some v →
        (applySourceDefaults src ty d).metadata.docType = some v)
    ∧ (∀ src ty d, (applySourceDefaults src ty d).pageContent = d.pageContent) := by
  refine ⟨?_, ?_, ?_, ?_, ?_, ?_, ?_, ?_⟩
  · intro docs s1 hd
    simp [loadWithMetadata, hd]
  · unfold defaultDocType
    by_cases hc : strLower (pathSuffix path) = ".html" ∨ strLower (pathSuffix path) = ".htm"
    · simp [hc]
    · simp [hc]
  · unfold defaultDocType
    by_cases hc : strLower (pathSuffix path) = ".html" ∨ strLower (pathSuffix path) = ".htm"
    · simp [hc]
    · simp [hc]
  · intro src ty d hd
    simp [applySourceDefaults, hd]
  · intro src ty d v hd
    simp [applySourceDefaults, hd]
  · intro src ty d hd
    simp [applySourceDefaults, hd]
  · intro src ty d v hd
    simp [applySourceDefaults, hd]
  · intro src ty d
    simp [applySourceDefaults]

/-- C7 — witness: a text file whose loader pre-sets `doc_type` keeps that
value while the missing `source_document` is defaulted to the base name. -/
theorem load_with_metadata_defaults_witness :
    loadWithMetadata envTxtPreset "doc.txt" initEngineState =
      (Except.ok [⟨"body", ⟨some "doc.txt", some "html"⟩⟩], initEngineState) := by
  have h := (load_with_metadata_defaults envTxtPreset "doc.txt" initEngineState).1
    [⟨"body", ⟨none, some "html"⟩⟩] initEngineState rfl
  rw [h]
  rfl

/-- Every list is empty or a final-element extension. -/
theorem snoc_cases {α : Type} (l : List α) : l = [] ∨ ∃ L b, l = L ++ [b] := by
  rcases List.eq_nil_or_concat l with h | ⟨L, b, h⟩
  · exact Or.inl h
  · exact Or.inr ⟨L, b, by simpa [List.concat_eq_append] using h⟩

/-- Appending a final element is injective in both parts. -/
theorem snoc_inj {α : Type} {l1 l2 : List α} {a b : α} (h : l1 ++ [a] = l2 ++ [b]) :
    l1 = l2 ∧ a = b := by
  have h2 := congrArg List.reverse h
  simp at h2
  exact ⟨h2.2, h2.1⟩

/-- Running the lifecycle operations leaves the cached page state holding
`(p, r)` exactly when a load of that page-markup pair occurs and no clear
and no other page-markup load follows it. -/
theorem runOps_markup_iff (p r : String) (ops : List EngineOp) :
    ((runOps ops).latestHtmlPath = some p ∧ (runOps ops).latestHtmlContent = some r) ↔
      ∃ pre post, ops = pre ++ EngineOp.loadMarkup p r :: post ∧
        ∀ op ∈ post, (∀ q t, op ≠ EngineOp.loadMarkup q t) ∧
          (∀ o2, op ≠ EngineOp.clearOp o2) := by
  induction ops using List.reverseRecOn with
  | nil =>
    simp [runOps, initEngineState]
  | append_singleton l op ih =>
    have hrun : runOps (l ++ [op]) = stepOp (runOps l) op := by
      simp [runOps, List.foldl_append]
    rw [hrun]
    cases op with
    | loadMarkup q t =>
      constructor
      · rintro ⟨h1, h2⟩
        simp [stepOp, loadHtmlState] at h1 h2
        subst h1; subst h2
        exact ⟨l, [], rfl, by simp⟩
      · rintro ⟨pre, post, heq, hclean⟩
        rcases snoc_cases post with hpost | ⟨post0, a, hpost⟩
        · subst hpost
          obtain ⟨-, h2⟩ := snoc_inj heq
          injection h2 with hq ht
          subst hq; subst ht
          simp [stepOp, loadHtmlState]
        · subst hpost
          have heq3 : l ++ [EngineOp.loadMarkup q t] =
              (pre ++ EngineOp.loadMarkup p r :: post0) ++ [a] := by
            rw [heq]; simp
          obtain ⟨-, ha⟩ := snoc_inj heq3
          have hmem : a ∈ post0 ++ [a] := by simp
          exact absurd ha.symm ((hclean a hmem).1 q t)
    | loadSupport =>
      simp only [stepOp]
      rw [ih]
      constructor
      · rintro ⟨pre, post, heq, hclean⟩
        refine ⟨pre, post ++ [.loadSupport], by rw [heq]; simp, ?_⟩
        intro op hop
        rcases List.mem_append.mp hop with h1 | h1
        · exact hclean op h1
        · simp at h1
          subst h1
          exact ⟨fun q t => by simp, fun o2 => by simp⟩
      · rintro ⟨pre, post, heq, hclean⟩
        rcases snoc_cases post with hpost | ⟨post0, a, hpost⟩
        · subst hpost
          obtain ⟨-, h2⟩ := snoc_inj heq
          exact absurd h2 (by simp)
        · subst hpost
          have heq3 : l ++ [EngineOp.loadSupport] =
              (pre ++ EngineOp.loadMarkup p r :: post0) ++ [a] := by
            rw [heq]; simp
          obtain ⟨hl, -⟩ := snoc_inj heq3
          refine ⟨pre, post0, hl, ?_⟩
          intro op hop
          exact hclean op (by simp [hop])
    | clearOp o =>
      constructor
      · rintro ⟨h1, h2⟩
        cases o <;> simp [stepOp, clearDatabase] at h1
      · rintro ⟨pre, post, heq, hclean⟩
        exfalso
        rcases snoc_cases post with hpost | ⟨post0, a, hpost⟩
        · subst hpost
          obtain ⟨-, h2⟩ := snoc_inj heq
          exact absurd h2 (by simp)
        · subst hpost
          have heq3 : l ++ [EngineOp.clearOp o] =
              (pre ++ EngineOp.loadMarkup p r :: post0) ++ [a] := by
            rw [heq]; simp
          obtain ⟨-, ha⟩ := snoc_inj heq3
          have hmem : a ∈ post0 ++ [a] := by simp
          exact (hclean a hmem).2 o ha.symm

/-- C8: loading a page-markup file caches that file's path and verbatim raw
markup while the produced document holds only the extracted visible text;
clearing resets both cached fields; and over any lifecycle sequence the
cached page state holds exactly the most recent page-markup load not
followed by a clear, and is empty otherwise. -/
theorem cached_page_state_lifecycle :
    (∀ env path raw s2, env.fs path = some raw →
       (strLower (pathSuffix path) = ".html" ∨ strLower (pathSuffix path) = ".htm") →
       loadDispatch env path s2 =
         (Except.ok [⟨env.extractText raw, ⟨some (basename path), some (defaultDocType path)⟩⟩],
          loadHtmlState path raw s2)
       ∧ (loadHtmlState path raw s2).latestHtmlPath = some path
       ∧ (loadHtmlState path raw s2).latestHtmlContent = some raw)
    ∧ (∀ o s2, (clearDatabase o s2).latestHtmlPath = none ∧
        (clearDatabase o s2).latestHtmlContent = none)
    ∧ (∀ ops p r,
        ((runOps ops).latestHtmlPath = some p ∧ (runOps ops).latestHtmlContent = some r) ↔
          ∃ pre post, ops = pre ++ EngineOp.loadMarkup p r :: post ∧
            ∀ op ∈ post, (∀ q t, op ≠ EngineOp.loadMarkup q t) ∧
              (∀ o2, op ≠ EngineOp.clearOp o2)) := by
  refine ⟨?_, ?_, ?_⟩
  · intro env path raw s2 hfs hext
    have hmd : ¬ strLower (pathSuffix path) = ".md" := by
      rcases hext with h | h <;> rw [h] <;> decide
    have htxt : ¬ strLower (pathSuffix path) = ".txt" := by
      rcases hext with h | h <;> rw [h] <;> decide
    have hjson : ¬ strLower (pathSuffix path) = ".json" := by
      rcases hext with h | h <;> rw [h] <;> decide
    refine ⟨?_, rfl, rfl⟩
    simp only [loadDispatch, hmd, htxt, hjson, hext, if_false, if_true, hfs]
  · intro o s2
    cases o <;> exact ⟨rfl, rfl⟩
  · intro ops p r
    exact runOps_markup_iff p r ops

/-- C8 — witness: after loading one markup file, clearing (with a failing
delete), and loading a second markup file, the cache holds the second. -/
theorem cached_page_state_lifecycle_witness :
    (runOps [EngineOp.loadMarkup "a.html" "<a>", EngineOp.clearOp (Except.error "boom"),
        EngineOp.loadMarkup "b.html" "<b>"]).latestHtmlPath = some "b.html" ∧
    (runOps [EngineOp.loadMarkup "a.html" "<a>", EngineOp.clearOp (Except.error "boom"),
        EngineOp.loadMarkup "b.html" "<b>"]).latestHtmlContent = some "<b>" :=
  (cached_page_state_lifecycle.2.2
      [EngineOp.loadMarkup "a.html" "<a>", EngineOp.clearOp (Except.error "boom"),
        EngineOp.loadMarkup "b.html" "<b>"] "b.html" "<b>").mpr
    ⟨[EngineOp.loadMarkup "a.html" "<a>", EngineOp.clearOp (Except.error "boom")], [],
      rfl, by simp⟩
